import Mathlib

/-!
Verification of the Now-Next Board schedule resolver (src/backend/app.py,
src/backend/models.py) and display renderer (src/display/renderer.py,
src/display/config.py).

Modelling conventions:
* Times of day are modelled at two granularities: the base resolver model
  takes `now` as whole seconds after midnight, and a refined model
  (`isCurrentUs`, `compute_time_info_us`, `get_current_and_next_activities_us`)
  takes `now_us` in microseconds after midnight, matching the microsecond
  precision of `datetime.now().time()` and capturing the separate `int()`
  truncations of the float elapsed and remaining values at app.py lines
  52-57.  An activity start parsed from "HH:MM" is kept as minutes after
  midnight (`start_min`).
* Python ints are `Int`; Python float quantities computed from exact
  integer data (progress percentages, interpolation ratios, darkening
  factors) are modelled as exact rationals `ℚ`, with `int()` truncation
  toward zero modelled by `truncQ`.
* Python `%` on ints (positive modulus) is `Int.emod`; Python `//` and `%`
  in the renderer are `Int.fdiv` / `Int.fmod` (floor division semantics).
* Strings consumed by the word-wrap routine are modelled as `List Char`,
  so Python `str.split(' ')` is `List.splitOn ' '` and `' '.join` is
  `List.intercalate [' ']`.
-/

namespace NowNext

/-- Python `int()` applied to an exact rational value: truncation toward zero. -/
def truncQ (q : ℚ) : Int := if q < 0 then -⌊-q⌋ else ⌊q⌋

/-! ### Backend data model (src/backend/models.py) -/

/-- `Activity` dataclass (models.py lines 9-18), with `start_time` already
parsed from its "HH:MM" form into minutes after midnight. -/
structure Activity where
  id : String
  name : String
  start_min : Nat
  duration_minutes : Int
  color : String
  icon : Option String
  background_image : Option String
deriving DecidableEq

/-- `Schedule` dataclass (models.py lines 40-46). -/
structure Schedule where
  id : String
  name : String
  activities : List Activity
  active : Bool
deriving DecidableEq

/-- `Activity.get_end_time` (models.py lines 32-37): start plus duration in
minutes, taken as a time of day, i.e. modulo 1440 minutes. -/
def Activity.end_min (a : Activity) : Nat :=
  (((a.start_min : Int) + a.duration_minutes) % 1440).toNat

/-- The start instant of an activity in seconds after midnight. -/
def Activity.start_sec (a : Activity) : Nat := a.start_min * 60

/-- The end instant of an activity in seconds after midnight. -/
def Activity.end_sec (a : Activity) : Nat := a.end_min * 60

/-! ### Schedule time resolver (src/backend/app.py lines 18-71) -/

/-- The current-activity test at app.py line 38: `start <= now < end`, a
plain comparison of the three time-of-day values. -/
def isCurrent (a : Activity) (now : Nat) : Bool :=
  decide (a.start_sec ≤ now) && decide (now < a.end_sec)

/-- The time-info record built at app.py lines 55-60. -/
structure TimeInfo where
  elapsed_seconds : Int
  remaining_seconds : Int
  total_seconds : Int
  progress_percent : ℚ
deriving DecidableEq

/-- The elapsed/remaining/progress computation at app.py lines 44-60 for an
activity that passed the current test: `elapsed` is measured from the start
instant of the same day, `remaining := total - elapsed`, and
`progress := elapsed / total * 100` guarded by `total > 0`. (The adjusted
`end_dt` computed at lines 46-48 is never used afterwards.) -/
def compute_time_info (a : Activity) (now : Nat) : TimeInfo :=
  { elapsed_seconds := (now : Int) - (a.start_sec : Int)
    remaining_seconds := a.duration_minutes * 60 - ((now : Int) - (a.start_sec : Int))
    total_seconds := a.duration_minutes * 60
    progress_percent :=
      if 0 < a.duration_minutes * 60 then
        ((((now : Int) - (a.start_sec : Int)) : ℚ) /
          ((a.duration_minutes * 60 : Int) : ℚ)) * 100
      else 0 }

/-- app.py lines 30-31: stable sort of the activities by parsed start time. -/
def sortActivities (acts : List Activity) : List Activity :=
  acts.mergeSort (fun a b => decide (a.start_min ≤ b.start_min))

/-- The first loop of `get_current_and_next_activities` (app.py lines
33-61): scan the sorted activities, stop at the first one passing the
current test, and pair it with its positional successor and time info. -/
def findCurrent (now : Nat) : List Activity → Option (Activity × Option Activity × TimeInfo)
  | [] => none
  | a :: rest =>
    if isCurrent a now then some (a, rest.head?, compute_time_info a now)
    else findCurrent now rest

/-- The fallback loop of `get_current_and_next_activities` (app.py lines
64-69): the first sorted activity whose start is strictly after `now`. -/
def findUpcoming (now : Nat) (acts : List Activity) : Option Activity :=
  acts.find? (fun a => decide (now < a.start_sec))

/-- `get_current_and_next_activities` (app.py lines 18-71), as a function of
the active schedule (or `none`) and the current time of day in seconds. -/
def get_current_and_next_activities (schedule : Option Schedule) (now : Nat) :
    Option Activity × Option Activity × Option TimeInfo :=
  match schedule with
  | none => (none, none, none)
  | some sched =>
    match findCurrent now (sortActivities sched.activities) with
    | some (cur, nxt, ti) => (some cur, nxt, some ti)
    | none => (none, findUpcoming now (sortActivities sched.activities), none)

/-! ### Sub-second refinement of the resolver

`datetime.now().time()` carries microseconds, and app.py lines 52-57
truncate the float elapsed value and the float remaining value separately
with `int()`, while line 59 computes the progress from the untruncated
elapsed value.  The following definitions refine the resolver to instants
measured in microseconds after midnight, with the float arithmetic carried
out exactly in ℚ. -/

/-- The current test at app.py line 38 for a microsecond instant: the
parsed start and computed end carry no sub-second part, so the time-object
comparison is a comparison of microsecond counts. -/
def isCurrentUs (a : Activity) (now_us : Nat) : Bool :=
  decide (a.start_sec * 1000000 ≤ now_us) && decide (now_us < a.end_sec * 1000000)

/-- `elapsed_dt.total_seconds()` (app.py lines 51-52): the number of
seconds elapsed since the activity's start, a fractional value when the
instant carries microseconds. -/
def elapsedSeconds (a : Activity) (now_us : Nat) : ℚ :=
  (now_us : ℚ) / 1000000 - (a.start_sec : ℚ)

/-- The time-info computation at app.py lines 44-60 for a microsecond
instant: `elapsed_seconds` and `remaining_seconds` are truncated to int
separately (lines 56-57), and `progress_percent` divides the untruncated
elapsed value by the total (line 59). -/
def compute_time_info_us (a : Activity) (now_us : Nat) : TimeInfo :=
  { elapsed_seconds := truncQ (elapsedSeconds a now_us)
    remaining_seconds :=
      truncQ (((a.duration_minutes * 60 : Int) : ℚ) - elapsedSeconds a now_us)
    total_seconds := a.duration_minutes * 60
    progress_percent :=
      if 0 < a.duration_minutes * 60 then
        (elapsedSeconds a now_us / ((a.duration_minutes * 60 : Int) : ℚ)) * 100
      else 0 }

/-- The first loop of `get_current_and_next_activities` (app.py lines
33-61) at microsecond precision. -/
def findCurrentUs (now_us : Nat) :
    List Activity → Option (Activity × Option Activity × TimeInfo)
  | [] => none
  | a :: rest =>
    if isCurrentUs a now_us then some (a, rest.head?, compute_time_info_us a now_us)
    else findCurrentUs now_us rest

/-- The fallback loop (app.py lines 64-69) at microsecond precision. -/
def findUpcomingUs (now_us : Nat) (acts : List Activity) : Option Activity :=
  acts.find? (fun a => decide (now_us < a.start_sec * 1000000))

/-- `get_current_and_next_activities` (app.py lines 18-71) for an instant
carrying microseconds. -/
def get_current_and_next_activities_us (schedule : Option Schedule)
    (now_us : Nat) : Option Activity × Option Activity × Option TimeInfo :=
  match schedule with
  | none => (none, none, none)
  | some sched =>
    match findCurrentUs now_us (sortActivities sched.activities) with
    | some (cur, nxt, ti) => (some cur, nxt, some ti)
    | none => (none, findUpcomingUs now_us (sortActivities sched.activities), none)

/-! ### Display configuration (src/display/config.py) -/

/-- An RGB color triple as returned by the renderer color helpers. -/
structure RGB where
  r : Int
  g : Int
  b : Int
deriving DecidableEq

def TIMER_COLOR_GREEN : RGB := ⟨76, 175, 80⟩

def TIMER_COLOR_AMBER : RGB := ⟨255, 193, 7⟩

def TIMER_COLOR_RED : RGB := ⟨244, 67, 54⟩

/-! ### Renderer color ramp (src/display/renderer.py lines 28-49) -/

/-- One channel of the linear blend: `int(start + (end - start) * ratio)`. -/
def interpChannel (s e : Int) (t : ℚ) : Int :=
  truncQ ((s : Int) + ((e - s : Int) : ℚ) * t)

/-- The low branch of `get_timer_color` (renderer.py lines 33-38):
green-to-amber blend with ratio `progress_percent / 50`. -/
def interpGreenAmber (progress_percent : ℚ) : RGB :=
  let t := progress_percent / 50
  ⟨interpChannel TIMER_COLOR_GREEN.r TIMER_COLOR_AMBER.r t,
   interpChannel TIMER_COLOR_GREEN.g TIMER_COLOR_AMBER.g t,
   interpChannel TIMER_COLOR_GREEN.b TIMER_COLOR_AMBER.b t⟩

/-- The middle branch of `get_timer_color` (renderer.py lines 39-44):
amber-to-red blend with ratio `(progress_percent - 50) / 25`. -/
def interpAmberRed (progress_percent : ℚ) : RGB :=
  let t := (progress_percent - 50) / 25
  ⟨interpChannel TIMER_COLOR_AMBER.r TIMER_COLOR_RED.r t,
   interpChannel TIMER_COLOR_AMBER.g TIMER_COLOR_RED.g t,
   interpChannel TIMER_COLOR_AMBER.b TIMER_COLOR_RED.b t⟩

/-- `Renderer.get_timer_color` (renderer.py lines 28-49). -/
def get_timer_color (progress_percent : ℚ) : RGB :=
  if progress_percent < 50 then interpGreenAmber progress_percent
  else if progress_percent < 75 then interpAmberRed progress_percent
  else TIMER_COLOR_RED

/-- The color-selection behavior of `Renderer.draw_border_timer`
(renderer.py lines 51-63): it returns before picking a timer color when
`progress_percent ≤ 0`, and otherwise draws with `get_timer_color`. -/
def border_timer_color (progress_percent : ℚ) : Option RGB :=
  if progress_percent ≤ 0 then none else some (get_timer_color progress_percent)

/-- The timer-border color drawn by `Renderer.render` (renderer.py lines
399-409): when both a time info record and a current activity are present,
`time_info['progress_percent']` is handed to `draw_border_timer` unchanged. -/
def render_border_color (current_activity : Option Activity)
    (time_info : Option TimeInfo) : Option RGB :=
  match time_info, current_activity with
  | some ti, some _ => border_timer_color ti.progress_percent
  | _, _ => none

/-! ### Renderer word wrap (src/display/renderer.py lines 130-153) -/

/-- Python `' '.join` over a list of words, on the `List Char` model. -/
def joinSp (ws : List (List Char)) : List Char := List.intercalate [' '] ws

/-- The loop body of `Renderer.wrap_text`: try each word on the current
line; if the joined test line fits the width, keep it, otherwise flush the
(nonempty) current line and start a new one with the word.  The final
nonempty line is flushed at the end. -/
def wrapLoop (font : List Char → Nat) (max_width : Nat)
    (current_line : List (List Char)) : List (List Char) → List (List Char)
  | [] => if current_line.isEmpty then [] else [joinSp current_line]
  | word :: ws =>
    if font (joinSp (current_line ++ [word])) ≤ max_width then
      wrapLoop font max_width (current_line ++ [word]) ws
    else if current_line.isEmpty then
      wrapLoop font max_width [word] ws
    else
      joinSp current_line :: wrapLoop font max_width [word] ws

/-- `Renderer.wrap_text` (renderer.py lines 130-153): split the text on
single spaces and greedily fill lines, measuring each candidate line with
the font metric (the rendered surface width of the joined test line). -/
def wrap_text (text : List Char) (font : List Char → Nat) (max_width : Nat) :
    List (List Char) :=
  wrapLoop font max_width [] (text.splitOn ' ')

/-! ### Renderer gradient background (src/display/renderer.py lines 239-257) -/

/-- The color of pixel row `y` drawn by `create_gradient_background`:
`ratio = y / height`, `darkening_factor = 0.95 + ratio * 0.05`, and each
channel is `int(channel * darkening_factor)`. -/
def gradient_row (height : Nat) (color : RGB) (y : Nat) : RGB :=
  let t : ℚ := (y : ℚ) / (height : ℚ)
  let darkening_factor : ℚ := 95 / 100 + t * (5 / 100)
  ⟨truncQ ((color.r : ℚ) * darkening_factor),
   truncQ ((color.g : ℚ) * darkening_factor),
   truncQ ((color.b : ℚ) * darkening_factor)⟩

/-- `Renderer.create_gradient_background` (renderer.py lines 239-257),
viewed as the list of per-row colors for `y = 0, …, height - 1` from top
to bottom (the width only affects line length, not color). -/
def create_gradient_background (height : Nat) (color : RGB) : List RGB :=
  (List.range height).map (gradient_row height color)

/-! ### Renderer time-remaining readout (src/display/renderer.py lines 384-397) -/

/-- The text built by `Renderer.draw_time_remaining`: Python `//` and `%`
are floor division and floor modulus. -/
def draw_time_remaining (remaining_seconds : Int) : String :=
  let minutes := Int.fdiv remaining_seconds 60
  let seconds := Int.fmod remaining_seconds 60
  if 0 < minutes then
    toString minutes ++ "m " ++ toString seconds ++ "s remaining"
  else
    toString seconds ++ "s remaining"

/-! ### Concrete schedules used in the worked examples -/

/-- The midnight-spanning activity of spec scenario 3: start 23:00,
duration 120 minutes. -/
def wrapActivity : Activity :=
  { id := "a1", name := "Night block", start_min := 23 * 60,
    duration_minutes := 120, color := "#ff0000", icon := none,
    background_image := none }

def wrapSchedule : Schedule :=
  { id := "s1", name := "Evening", activities := [wrapActivity], active := true }

/-- The activity of spec scenario 1: start 07:00, duration 30 minutes. -/
def morningActivity : Activity :=
  { id := "a2", name := "Breakfast", start_min := 7 * 60,
    duration_minutes := 30, color := "#00ff00", icon := none,
    background_image := none }

def morningSchedule : Schedule :=
  { id := "s2", name := "Morning", activities := [morningActivity], active := true }

/-- An early activity (06:40, 110 minutes, window 06:40-08:30) that
overlaps the start of `lateActivity`. -/
def earlyActivity : Activity :=
  { id := "b1", name := "Reading", start_min := 400,
    duration_minutes := 110, color := "#0000ff", icon := none,
    background_image := none }

/-- A later activity (08:00, 120 minutes, window 08:00-10:00). -/
def lateActivity : Activity :=
  { id := "b2", name := "Morning block", start_min := 480,
    duration_minutes := 120, color := "#123456", icon := none,
    background_image := none }

/-- A schedule with overlapping activity windows, allowed by the data
model. -/
def overlapSchedule : Schedule :=
  { id := "s3", name := "Overlap", activities := [earlyActivity, lateActivity],
    active := true }

def emptySchedule : Schedule :=
  { id := "s0", name := "Empty", activities := [], active := true }

/-! ### Helper lemmas about the resolver -/

theorem isCurrent_iff {a : Activity} {now : Nat} :
    isCurrent a now = true ↔ a.start_sec ≤ now ∧ now < a.end_sec := by
  simp [isCurrent]

theorem sortActivities_of_sorted {acts : List Activity}
    (h : acts.Pairwise (fun a b => a.start_min ≤ b.start_min)) :
    sortActivities acts = acts := by
  apply List.mergeSort_of_sorted
  exact h.imp fun hab => by simpa using hab

theorem findCurrent_eq_some {now : Nat} :
    ∀ {l : List Activity} {res : Activity × Option Activity × TimeInfo},
      findCurrent now l = some res →
      res.1 ∈ l ∧ isCurrent res.1 now = true ∧ res.2.2 = compute_time_info res.1 now := by
  intro l
  induction l with
  | nil => intro res h; simp [findCurrent] at h
  | cons a rest ih =>
    intro res h
    rw [findCurrent] at h
    by_cases hc : isCurrent a now = true
    · rw [if_pos hc] at h
      obtain rfl : (a, rest.head?, compute_time_info a now) = res := by
        simpa using h
      exact ⟨List.mem_cons_self _ _, hc, rfl⟩
    · rw [if_neg hc] at h
      obtain ⟨h1, h2, h3⟩ := ih h
      exact ⟨List.mem_cons_of_mem _ h1, h2, h3⟩

theorem findCurrent_eq_none {now : Nat} :
    ∀ {l : List Activity}, (∀ b ∈ l, isCurrent b now = false) →
      findCurrent now l = none := by
  intro l
  induction l with
  | nil => intro _; rfl
  | cons a rest ih =>
    intro h
    rw [findCurrent, if_neg (by simp [h a (List.mem_cons_self _ _)]), ih]
    intro b hb
    exact h b (List.mem_cons_of_mem _ hb)

theorem findCurrent_at {now : Nat} :
    ∀ {l : List Activity} {i : Nat} {a : Activity},
      l[i]? = some a → isCurrent a now = true →
      (∀ j b, j < i → l[j]? = some b → isCurrent b now = false) →
      findCurrent now l = some (a, l[i + 1]?, compute_time_info a now) := by
  intro l
  induction l with
  | nil => intro i a ha _ _; simp at ha
  | cons x rest ih =>
    intro i a ha hc hfirst
    match i with
    | 0 =>
      obtain rfl : x = a := by simpa using ha
      rw [findCurrent, if_pos hc]
      cases rest <;> simp
    | i + 1 =>
      have hx : isCurrent x now = false := hfirst 0 x (Nat.succ_pos i) (by simp)
      rw [findCurrent, if_neg (by simp [hx])]
      have := ih (i := i) (by simpa using ha) hc
        (fun j b hj hb => hfirst (j + 1) b (Nat.succ_lt_succ hj) (by simpa using hb))
      simpa using this

theorem find?_first {α : Type _} (p : α → Bool) :
    ∀ {l : List α} {i : Nat} {a : α},
      l[i]? = some a → p a = true →
      (∀ j b, j < i → l[j]? = some b → p b = false) →
      l.find? p = some a := by
  intro l
  induction l with
  | nil => intro i a ha _ _; simp at ha
  | cons x rest ih =>
    intro i a ha hp hfirst
    match i with
    | 0 =>
      obtain rfl : x = a := by simpa using ha
      rw [List.find?_cons_of_pos _ hp]
    | i + 1 =>
      have hx : p x = false := hfirst 0 x (Nat.succ_pos i) (by simp)
      rw [List.find?_cons_of_neg _ (by simp [hx])]
      exact ih (by simpa using ha) hp
        (fun j b hj hb => hfirst (j + 1) b (Nat.succ_lt_succ hj) (by simpa using hb))

theorem resolve_time_info {sched : Schedule} {now : Nat} {ti : TimeInfo}
    (h : (get_current_and_next_activities (some sched) now).2.2 = some ti) :
    ∃ a, (get_current_and_next_activities (some sched) now).1 = some a ∧
      a ∈ sched.activities ∧ isCurrent a now = true ∧ ti = compute_time_info a now := by
  rw [get_current_and_next_activities] at h ⊢
  cases hfc : findCurrent now (sortActivities sched.activities) with
  | none => rw [hfc] at h; simp at h
  | some res =>
    obtain ⟨c, n, t⟩ := res
    rw [hfc] at h
    obtain rfl : t = ti := by simpa using h
    obtain ⟨hmem, hcur, hti⟩ := findCurrent_eq_some hfc
    refine ⟨c, rfl, ?_, hcur, hti⟩
    have := hmem
    rwa [sortActivities, List.mem_mergeSort] at this

/-! ### Arithmetic facts about the computed time info -/

theorem compute_time_info_total {a : Activity} {now : Nat} :
    (compute_time_info a now).total_seconds = a.duration_minutes * 60 := rfl

theorem compute_time_info_elapsed {a : Activity} {now : Nat} :
    (compute_time_info a now).elapsed_seconds = (now : Int) - (a.start_sec : Int) := rfl

theorem compute_time_info_remaining {a : Activity} {now : Nat} :
    (compute_time_info a now).remaining_seconds =
      a.duration_minutes * 60 - ((now : Int) - (a.start_sec : Int)) := rfl

theorem compute_time_info_progress {a : Activity} {now : Nat} :
    (compute_time_info a now).progress_percent =
      if 0 < a.duration_minutes * 60 then
        ((((now : Int) - (a.start_sec : Int)) : ℚ) /
          ((a.duration_minutes * 60 : Int) : ℚ)) * 100
      else 0 := rfl

theorem isCurrent_elapsed_le_total {a : Activity} {now : Nat}
    (hc : isCurrent a now = true) (hd : 0 ≤ a.duration_minutes) :
    0 ≤ (now : Int) - (a.start_sec : Int) ∧
      (now : Int) - (a.start_sec : Int) ≤ a.duration_minutes * 60 := by
  obtain ⟨h1, h2⟩ := isCurrent_iff.mp hc
  simp only [Activity.start_sec, Activity.end_sec, Activity.end_min] at h1 h2 ⊢
  omega

theorem compute_time_info_bounds {a : Activity} {now : Nat}
    (hc : isCurrent a now = true) (hd : 0 ≤ a.duration_minutes) :
    0 ≤ (compute_time_info a now).elapsed_seconds ∧
    0 ≤ (compute_time_info a now).remaining_seconds ∧
    (compute_time_info a now).elapsed_seconds +
      (compute_time_info a now).remaining_seconds =
      (compute_time_info a now).total_seconds := by
  obtain ⟨hle, hge⟩ := isCurrent_elapsed_le_total hc hd
  rw [compute_time_info_elapsed, compute_time_info_remaining, compute_time_info_total]
  omega

theorem compute_time_info_progress_mem {a : Activity} {now : Nat}
    (hc : isCurrent a now = true) :
    0 ≤ (compute_time_info a now).progress_percent ∧
      (compute_time_info a now).progress_percent ≤ 100 := by
  rw [compute_time_info_progress]
  split
  case isTrue h =>
    have hd : 0 ≤ a.duration_minutes := by omega
    obtain ⟨h0, h1⟩ := isCurrent_elapsed_le_total hc hd
    have hT : (0 : ℚ) < ((a.duration_minutes * 60 : Int) : ℚ) := by exact_mod_cast h
    have hE0 : (0 : ℚ) ≤ (((now : Int) - (a.start_sec : Int)) : ℚ) := by exact_mod_cast h0
    have hE1 : (((now : Int) - (a.start_sec : Int)) : ℚ) ≤
        ((a.duration_minutes * 60 : Int) : ℚ) := by exact_mod_cast h1
    constructor
    · have := div_nonneg hE0 (le_of_lt hT)
      linarith
    · have hdiv : (((now : Int) - (a.start_sec : Int)) : ℚ) /
          ((a.duration_minutes * 60 : Int) : ℚ) ≤ 1 := (div_le_one hT).mpr hE1
      linarith
  case isFalse h => norm_num

theorem compute_time_info_progress_mono {a : Activity} {t1 t2 : Nat}
    (h : t1 ≤ t2) :
    (compute_time_info a t1).progress_percent ≤
      (compute_time_info a t2).progress_percent := by
  rw [compute_time_info_progress, compute_time_info_progress]
  split
  case isTrue hT =>
    have hT' : (0 : ℚ) < ((a.duration_minutes * 60 : Int) : ℚ) := by exact_mod_cast hT
    have hE : (((t1 : Int) - (a.start_sec : Int)) : ℚ) ≤
        (((t2 : Int) - (a.start_sec : Int)) : ℚ) := by
      have : (t1 : ℚ) ≤ (t2 : ℚ) := by exact_mod_cast h
      push_cast
      linarith
    have hdiv := (div_le_div_iff_of_pos_right hT').mpr hE
    linarith
  case isFalse h => exact le_refl _

theorem compute_time_info_progress_at_start {a : Activity} :
    (compute_time_info a a.start_sec).progress_percent = 0 := by
  rw [compute_time_info_progress]
  split <;> simp

theorem compute_time_info_progress_zero_total {a : Activity} {now : Nat}
    (h : a.duration_minutes = 0) :
    (compute_time_info a now).progress_percent = 0 := by
  rw [compute_time_info_progress, h]
  norm_num

/-! ### Concrete resolutions of the example schedules -/

theorem resolve_some (sched : Schedule) (now : Nat) :
    get_current_and_next_activities (some sched) now =
      match findCurrent now (sortActivities sched.activities) with
      | some (cur, nxt, ti) => (some cur, nxt, some ti)
      | none => (none, findUpcoming now (sortActivities sched.activities), none) := rfl

theorem sortActivities_morning :
    sortActivities morningSchedule.activities = [morningActivity] := by
  simp [sortActivities, morningSchedule]

theorem sortActivities_wrap :
    sortActivities wrapSchedule.activities = [wrapActivity] := by
  simp [sortActivities, wrapSchedule]

theorem sortActivities_overlap :
    sortActivities overlapSchedule.activities = [earlyActivity, lateActivity] := by
  have h : (overlapSchedule.activities).Pairwise
      (fun a b => a.start_min ≤ b.start_min) := by
    simp [overlapSchedule, List.pairwise_cons, earlyActivity, lateActivity]
  exact sortActivities_of_sorted h

theorem resolve_morning :
    get_current_and_next_activities (some morningSchedule) 26100 =
      (some morningActivity, none, some ⟨900, 900, 1800, 50⟩) := by
  have hcur : isCurrent morningActivity 26100 = true := by decide
  have hti : compute_time_info morningActivity 26100 = ⟨900, 900, 1800, 50⟩ := by
    norm_num [compute_time_info, morningActivity, Activity.start_sec, TimeInfo.mk.injEq]
  rw [resolve_some, sortActivities_morning]
  simp [findCurrent, hcur, hti]

theorem resolve_wrap :
    get_current_and_next_activities (some wrapSchedule) 1800 =
      (none, some wrapActivity, none) := by
  have hcur : isCurrent wrapActivity 1800 = false := by decide
  rw [resolve_some, sortActivities_wrap]
  simp [findCurrent, hcur, findUpcoming]
  decide

theorem resolve_morning_early :
    get_current_and_next_activities (some morningSchedule) 25800 =
      (some morningActivity, none, some ⟨600, 1200, 1800, 100 / 3⟩) := by
  have hcur : isCurrent morningActivity 25800 = true := by decide
  have hti : compute_time_info morningActivity 25800 = ⟨600, 1200, 1800, 100 / 3⟩ := by
    norm_num [compute_time_info, morningActivity, Activity.start_sec, TimeInfo.mk.injEq]
  rw [resolve_some, sortActivities_morning]
  simp [findCurrent, hcur, hti]

theorem resolve_morning_late :
    get_current_and_next_activities (some morningSchedule) 26400 =
      (some morningActivity, none, some ⟨1200, 600, 1800, 200 / 3⟩) := by
  have hcur : isCurrent morningActivity 26400 = true := by decide
  have hti : compute_time_info morningActivity 26400 = ⟨1200, 600, 1800, 200 / 3⟩ := by
    norm_num [compute_time_info, morningActivity, Activity.start_sec, TimeInfo.mk.injEq]
  rw [resolve_some, sortActivities_morning]
  simp [findCurrent, hcur, hti]

theorem resolve_overlap_t1 :
    get_current_and_next_activities (some overlapSchedule) 30300 =
      (some earlyActivity, some lateActivity, some ⟨6300, 300, 6600, 1050 / 11⟩) := by
  have hcur : isCurrent earlyActivity 30300 = true := by decide
  have hti : compute_time_info earlyActivity 30300 = ⟨6300, 300, 6600, 1050 / 11⟩ := by
    norm_num [compute_time_info, earlyActivity, Activity.start_sec, TimeInfo.mk.injEq]
  rw [resolve_some, sortActivities_overlap]
  simp [findCurrent, hcur, hti]

theorem resolve_overlap_t2 :
    get_current_and_next_activities (some overlapSchedule) 31200 =
      (some lateActivity, none, some ⟨2400, 4800, 7200, 100 / 3⟩) := by
  have hcur1 : isCurrent earlyActivity 31200 = false := by decide
  have hcur2 : isCurrent lateActivity 31200 = true := by decide
  have hti : compute_time_info lateActivity 31200 = ⟨2400, 4800, 7200, 100 / 3⟩ := by
    norm_num [compute_time_info, lateActivity, Activity.start_sec, TimeInfo.mk.injEq]
  rw [resolve_some, sortActivities_overlap]
  simp [findCurrent, hcur1, hcur2, hti]

theorem resolver_current_ti {sched : Schedule} {now : Nat} {a : Activity}
    {ti : TimeInfo}
    (h1 : (get_current_and_next_activities (some sched) now).1 = some a)
    (h2 : (get_current_and_next_activities (some sched) now).2.2 = some ti) :
    ti = compute_time_info a now ∧ isCurrent a now = true := by
  obtain ⟨b, hb1, _, hcur, rfl⟩ := resolve_time_info h2
  rw [h1] at hb1
  obtain rfl : a = b := by simpa using hb1
  exact ⟨rfl, hcur⟩

/-! ### Lemmas about the microsecond-level resolver -/

theorem truncQ_int_add_fract {n : Int} (hn : 0 ≤ n) {f : ℚ} (h0 : 0 ≤ f)
    (h1 : f < 1) : truncQ ((n : ℚ) + f) = n := by
  have hn' : (0 : ℚ) ≤ (n : ℚ) := by exact_mod_cast hn
  have hx : ¬ ((n : ℚ) + f < 0) := by
    push_neg
    linarith
  unfold truncQ
  rw [if_neg hx, add_comm, Int.floor_add_int,
    Int.floor_eq_zero_iff.mpr (Set.mem_Ico.mpr ⟨h0, h1⟩)]
  omega

theorem isCurrentUs_bounds {a : Activity} {now_us : Nat}
    (hc : isCurrentUs a now_us = true) (hd : 0 ≤ a.duration_minutes) :
    (a.start_sec : Int) * 1000000 ≤ (now_us : Int) ∧
      (now_us : Int) < ((a.start_sec : Int) + a.duration_minutes * 60) * 1000000 := by
  obtain ⟨h1, h2⟩ : a.start_sec * 1000000 ≤ now_us ∧ now_us < a.end_sec * 1000000 := by
    simpa [isCurrentUs] using hc
  simp only [Activity.start_sec, Activity.end_sec, Activity.end_min] at h1 h2 ⊢
  omega

theorem findCurrentUs_eq_some {now_us : Nat} :
    ∀ {l : List Activity} {res : Activity × Option Activity × TimeInfo},
      findCurrentUs now_us l = some res →
      res.1 ∈ l ∧ isCurrentUs res.1 now_us = true ∧
        res.2.2 = compute_time_info_us res.1 now_us := by
  intro l
  induction l with
  | nil => intro res h; simp [findCurrentUs] at h
  | cons a rest ih =>
    intro res h
    rw [findCurrentUs] at h
    by_cases hc : isCurrentUs a now_us = true
    · rw [if_pos hc] at h
      obtain rfl : (a, rest.head?, compute_time_info_us a now_us) = res := by
        simpa using h
      exact ⟨List.mem_cons_self _ _, hc, rfl⟩
    · rw [if_neg hc] at h
      obtain ⟨h1, h2, h3⟩ := ih h
      exact ⟨List.mem_cons_of_mem _ h1, h2, h3⟩

theorem resolve_some_us (sched : Schedule) (now_us : Nat) :
    get_current_and_next_activities_us (some sched) now_us =
      match findCurrentUs now_us (sortActivities sched.activities) with
      | some (cur, nxt, ti) => (some cur, nxt, some ti)
      | none =>
        (none, findUpcomingUs now_us (sortActivities sched.activities), none) := rfl

theorem resolve_us_time_info {sched : Schedule} {now_us : Nat} {ti : TimeInfo}
    (h : (get_current_and_next_activities_us (some sched) now_us).2.2 = some ti) :
    ∃ a, (get_current_and_next_activities_us (some sched) now_us).1 = some a ∧
      a ∈ sched.activities ∧ isCurrentUs a now_us = true ∧
      ti = compute_time_info_us a now_us := by
  rw [get_current_and_next_activities_us] at h ⊢
  cases hfc : findCurrentUs now_us (sortActivities sched.activities) with
  | none => rw [hfc] at h; simp at h
  | some res =>
    obtain ⟨c, n, t⟩ := res
    rw [hfc] at h
    obtain rfl : t = ti := by simpa using h
    obtain ⟨hmem, hcur, hti⟩ := findCurrentUs_eq_some hfc
    refine ⟨c, rfl, ?_, hcur, hti⟩
    have := hmem
    rwa [sortActivities, List.mem_mergeSort] at this

theorem compute_time_info_us_sum {a : Activity} {now_us : Nat}
    (hc : isCurrentUs a now_us = true) (hd : 0 ≤ a.duration_minutes) :
    0 ≤ (compute_time_info_us a now_us).elapsed_seconds ∧
    0 ≤ (compute_time_info_us a now_us).remaining_seconds ∧
    (now_us % 1000000 = 0 →
      (compute_time_info_us a now_us).elapsed_seconds +
        (compute_time_info_us a now_us).remaining_seconds =
        (compute_time_info_us a now_us).total_seconds) ∧
    (now_us % 1000000 ≠ 0 →
      (compute_time_info_us a now_us).elapsed_seconds +
        (compute_time_info_us a now_us).remaining_seconds =
        (compute_time_info_us a now_us).total_seconds - 1) := by
  obtain ⟨hb1, hb2⟩ := isCurrentUs_bounds hc hd
  obtain ⟨q, r, hqr, hr⟩ : ∃ q r : Nat, now_us = 1000000 * q + r ∧ r < 1000000 :=
    ⟨now_us / 1000000, now_us % 1000000, by omega, by omega⟩
  have hrlt : (r : ℚ) / 1000000 < 1 := by
    rw [div_lt_one (by norm_num)]
    exact_mod_cast hr
  have hrge : (0 : ℚ) ≤ (r : ℚ) / 1000000 := by positivity
  have hsplit : elapsedSeconds a now_us =
      (((q : Int) - (a.start_sec : Int) : Int) : ℚ) + (r : ℚ) / 1000000 := by
    unfold elapsedSeconds
    have hcast : (now_us : ℚ) = 1000000 * (q : ℚ) + (r : ℚ) := by
      exact_mod_cast congrArg (fun n : Nat => (n : ℚ)) hqr
    rw [hcast]
    push_cast
    field_simp
    ring
  have helapsed : (compute_time_info_us a now_us).elapsed_seconds =
      (q : Int) - (a.start_sec : Int) := by
    show truncQ (elapsedSeconds a now_us) = _
    rw [hsplit]
    exact truncQ_int_add_fract (by omega) hrge hrlt
  have htotal : (compute_time_info_us a now_us).total_seconds =
      a.duration_minutes * 60 := rfl
  rcases Nat.eq_zero_or_pos r with hr0 | hrpos
  · have hrem : (compute_time_info_us a now_us).remaining_seconds =
        a.duration_minutes * 60 - ((q : Int) - (a.start_sec : Int)) := by
      show truncQ (((a.duration_minutes * 60 : Int) : ℚ) - elapsedSeconds a now_us) = _
      rw [hsplit, hr0]
      rw [show ((a.duration_minutes * 60 : Int) : ℚ) -
          ((((q : Int) - (a.start_sec : Int) : Int) : ℚ) + (0 : Nat) / 1000000) =
          (((a.duration_minutes * 60 - ((q : Int) - (a.start_sec : Int)) : Int)) : ℚ) +
            0 from by push_cast; ring]
      exact truncQ_int_add_fract (by omega) le_rfl (by norm_num)
    refine ⟨?_, ?_, ?_, ?_⟩
    · rw [helapsed]; omega
    · rw [hrem]; omega
    · intro _; rw [helapsed, hrem, htotal]; omega
    · intro hmod; exfalso; omega
  · have hrem : (compute_time_info_us a now_us).remaining_seconds =
        a.duration_minutes * 60 - ((q : Int) - (a.start_sec : Int)) - 1 := by
      show truncQ (((a.duration_minutes * 60 : Int) : ℚ) - elapsedSeconds a now_us) = _
      rw [hsplit]
      rw [show ((a.duration_minutes * 60 : Int) : ℚ) -
          ((((q : Int) - (a.start_sec : Int) : Int) : ℚ) + (r : ℚ) / 1000000) =
          (((a.duration_minutes * 60 - ((q : Int) - (a.start_sec : Int)) - 1 : Int)) : ℚ) +
            (1 - (r : ℚ) / 1000000) from by push_cast; ring]
      refine truncQ_int_add_fract (by omega) ?_ ?_
      · linarith
      · have hr0' : (0 : ℚ) < (r : ℚ) / 1000000 := by
          have : (0 : ℚ) < (r : ℚ) := by exact_mod_cast hrpos
          positivity
        linarith
    refine ⟨?_, ?_, ?_, ?_⟩
    · rw [helapsed]; omega
    · rw [hrem]; omega
    · intro hmod; exfalso; omega
    · intro _; rw [helapsed, hrem, htotal]; omega

theorem resolve_morning_us_whole :
    get_current_and_next_activities_us (some morningSchedule) 26100000000 =
      (some morningActivity, none, some ⟨900, 900, 1800, 50⟩) := by
  have hcur : isCurrentUs morningActivity 26100000000 = true := by decide
  have he : elapsedSeconds morningActivity 26100000000 = 900 := by
    norm_num [elapsedSeconds, morningActivity, Activity.start_sec]
  have hti : compute_time_info_us morningActivity 26100000000 =
      ⟨900, 900, 1800, 50⟩ := by
    simp only [compute_time_info_us, he]
    norm_num [truncQ, morningActivity, TimeInfo.mk.injEq]
  rw [resolve_some_us, sortActivities_morning]
  simp [findCurrentUs, hcur, hti]

theorem resolve_morning_us_frac :
    get_current_and_next_activities_us (some morningSchedule) 26100500000 =
      (some morningActivity, none, some ⟨900, 899, 1800, 1801 / 36⟩) := by
  have hcur : isCurrentUs morningActivity 26100500000 = true := by decide
  have he : elapsedSeconds morningActivity 26100500000 = 1801 / 2 := by
    norm_num [elapsedSeconds, morningActivity, Activity.start_sec]
  have hfl1 : truncQ (1801 / 2 : ℚ) = 900 := by
    unfold truncQ
    rw [if_neg (by norm_num), Int.floor_eq_iff]
    constructor <;> norm_num
  have hfl2 : truncQ ((1800 : ℚ) - 1801 / 2) = 899 := by
    unfold truncQ
    rw [if_neg (by norm_num), Int.floor_eq_iff]
    constructor <;> norm_num
  have hti : compute_time_info_us morningActivity 26100500000 =
      ⟨900, 899, 1800, 1801 / 36⟩ := by
    simp only [compute_time_info_us, he]
    rw [show ((morningActivity.duration_minutes * 60 : Int) : ℚ) = 1800 from by
      norm_num [morningActivity]]
    rw [hfl1, hfl2]
    norm_num [morningActivity, TimeInfo.mk.injEq]
  rw [resolve_some_us, sortActivities_morning]
  simp [findCurrentUs, hcur, hti]

/-- An activity with zero duration, used to exercise the zero-total branch
of the progress formula. -/
def zeroActivity : Activity :=
  { id := "z1", name := "Instant", start_min := 600,
    duration_minutes := 0, color := "#aaaaaa", icon := none,
    background_image := none }

/-! ### Claim theorems -/

/-- C1 (code bug): the activity {start 23:00, duration 120} wraps past
midnight (its computed end time 01:00 precedes its start), and at
now = 00:30 the wraparound-aware rule of the spec accepts it (now < end),
with elapsed 5400 s and progress 75; but the resolver's current test is the
plain chain start ≤ now < end on time-of-day values, which no wrapped
activity can satisfy, so the code returns no current activity and no time
info at 00:30 and reports the activity only as upcoming. -/
theorem claim1_wrapped_activity_never_current :
    wrapActivity.end_sec ≤ wrapActivity.start_sec ∧
    (1800 : Nat) < wrapActivity.end_sec ∧
    get_current_and_next_activities (some wrapSchedule) 1800 =
      (none, some wrapActivity, none) :=
  ⟨by decide, by decide, resolve_wrap⟩

/-- C2 counterexample: at an instant with a fractional-second part the
separately truncated elapsed and remaining values sum to total_seconds - 1,
not total_seconds: on the schedule {start 07:00, duration 30} at
07:15:00.500000 the resolver produces elapsed 900 and remaining 899 against
a total of 1800 (int(900.5) = 900 and int(899.5) = 899 at app.py lines
56-57). -/
theorem claim2_truncation_counterexample :
    get_current_and_next_activities_us (some morningSchedule) 26100500000 =
      (some morningActivity, none, some ⟨900, 899, 1800, 1801 / 36⟩) ∧
    (⟨900, 899, 1800, (1801 : ℚ) / 36⟩ : TimeInfo).elapsed_seconds +
      (⟨900, 899, 1800, (1801 : ℚ) / 36⟩ : TimeInfo).remaining_seconds ≠
      (⟨900, 899, 1800, (1801 : ℚ) / 36⟩ : TimeInfo).total_seconds :=
  ⟨resolve_morning_us_frac, by decide⟩

/-- C2 (amended): every time info produced by the resolver — for a schedule
whose activity durations are positive, the data-model invariant — has
non-negative elapsed and remaining seconds, and total_seconds is exactly
the current activity's duration_minutes * 60; elapsed_seconds +
remaining_seconds equals total_seconds when the instant falls on a whole
second and total_seconds - 1 otherwise (the two values are truncated to int
separately, so a fractional second is dropped from each); on the
one-activity schedule {start 07:00, duration 30} at exactly 07:15 the
resolver returns that activity with elapsed 900, remaining 900, total 1800
and progress 50. -/
theorem claim2_time_info_sum_amended (sched : Schedule) (now_us : Nat)
    (hdur : ∀ a ∈ sched.activities, 0 < a.duration_minutes) :
    (∀ ti, (get_current_and_next_activities_us (some sched) now_us).2.2 = some ti →
      0 ≤ ti.elapsed_seconds ∧ 0 ≤ ti.remaining_seconds ∧
      (now_us % 1000000 = 0 →
        ti.elapsed_seconds + ti.remaining_seconds = ti.total_seconds) ∧
      (now_us % 1000000 ≠ 0 →
        ti.elapsed_seconds + ti.remaining_seconds = ti.total_seconds - 1) ∧
      ∀ a, (get_current_and_next_activities_us (some sched) now_us).1 = some a →
        ti.total_seconds = a.duration_minutes * 60) ∧
    get_current_and_next_activities_us (some morningSchedule) 26100000000 =
      (some morningActivity, none, some ⟨900, 900, 1800, 50⟩) := by
  constructor
  · intro ti hti
    obtain ⟨a, ha1, hmem, hcur, rfl⟩ := resolve_us_time_info hti
    have hd := le_of_lt (hdur a hmem)
    obtain ⟨h1, h2, h3, h4⟩ := compute_time_info_us_sum hcur hd
    refine ⟨h1, h2, h3, h4, ?_⟩
    intro b hb
    rw [ha1] at hb
    obtain rfl : a = b := by simpa using hb
    rfl
  · exact resolve_morning_us_whole

theorem claim2_time_info_sum_amended_witness :
    0 ≤ (⟨900, 899, 1800, (1801 : ℚ) / 36⟩ : TimeInfo).elapsed_seconds ∧
    0 ≤ (⟨900, 899, 1800, (1801 : ℚ) / 36⟩ : TimeInfo).remaining_seconds ∧
    (⟨900, 899, 1800, (1801 : ℚ) / 36⟩ : TimeInfo).elapsed_seconds +
      (⟨900, 899, 1800, (1801 : ℚ) / 36⟩ : TimeInfo).remaining_seconds =
      (⟨900, 899, 1800, (1801 : ℚ) / 36⟩ : TimeInfo).total_seconds - 1 ∧
    (⟨900, 899, 1800, (1801 : ℚ) / 36⟩ : TimeInfo).total_seconds =
      morningActivity.duration_minutes * 60 := by
  have h := claim2_time_info_sum_amended morningSchedule 26100500000 (by decide)
  have h1 := h.1 ⟨900, 899, 1800, 1801 / 36⟩ (by rw [resolve_morning_us_frac])
  exact ⟨h1.1, h1.2.1, h1.2.2.2.1 (by norm_num),
    h1.2.2.2.2 morningActivity (by rw [resolve_morning_us_frac])⟩

/-- C4: the resolver is a total function; absence is returned as explicit
none values: with no active schedule, or with an active schedule holding
zero activities, it returns (none, none, none). -/
theorem claim4_total_absence_as_none :
    (∀ now, get_current_and_next_activities none now = (none, none, none)) ∧
    ∀ (sched : Schedule) (now : Nat), sched.activities = [] →
      get_current_and_next_activities (some sched) now = (none, none, none) := by
  refine ⟨fun now => rfl, ?_⟩
  intro sched now h
  rw [resolve_some, h]
  simp [sortActivities, findCurrent, findUpcoming]

theorem claim4_total_absence_as_none_witness :
    get_current_and_next_activities (some emptySchedule) 0 = (none, none, none) :=
  claim4_total_absence_as_none.2 emptySchedule 0 rfl

/-- C6: the color ramp has no discontinuity at the stop boundaries: the
low-branch (green-to-amber) formula and the high-branch (amber-to-red)
formula agree at progress 50, the color at progress 0 is exactly the green
constant, and the color at progress 100 is exactly the red constant. -/
theorem claim6_color_ramp_continuity :
    interpGreenAmber 50 = interpAmberRed 50 ∧
    get_timer_color 0 = TIMER_COLOR_GREEN ∧
    get_timer_color 100 = TIMER_COLOR_RED := by
  refine ⟨?_, ?_, ?_⟩
  · norm_num [interpGreenAmber, interpAmberRed, interpChannel, truncQ,
      TIMER_COLOR_GREEN, TIMER_COLOR_AMBER, TIMER_COLOR_RED, RGB.mk.injEq]
  · norm_num [get_timer_color, interpGreenAmber, interpChannel, truncQ,
      TIMER_COLOR_GREEN, TIMER_COLOR_AMBER, RGB.mk.injEq]
  · norm_num [get_timer_color]

/-- C8 (code bug): the gradient rows brighten from top to bottom instead of
darkening: with base color (200, 200, 200) and height 2 the rows are
(190, 190, 190) then (195, 195, 195), so the top row is not the base color
at full brightness (it is at 95%) and the second row's channels exceed the
first row's, contradicting both the claim and the function's own comment
that it darkens top to bottom. -/
theorem claim8_gradient_direction_bug :
    create_gradient_background 2 ⟨200, 200, 200⟩ =
      [⟨190, 190, 190⟩, ⟨195, 195, 195⟩] ∧
    gradient_row 2 ⟨200, 200, 200⟩ 0 ≠ (⟨200, 200, 200⟩ : RGB) ∧
    (gradient_row 2 ⟨200, 200, 200⟩ 0).r < (gradient_row 2 ⟨200, 200, 200⟩ 1).r := by
  have h0 : gradient_row 2 ⟨200, 200, 200⟩ 0 = ⟨190, 190, 190⟩ := by
    norm_num [gradient_row, truncQ, RGB.mk.injEq]
  have h1 : gradient_row 2 ⟨200, 200, 200⟩ 1 = ⟨195, 195, 195⟩ := by
    norm_num [gradient_row, truncQ, RGB.mk.injEq]
  refine ⟨?_, by rw [h0]; decide, by rw [h0, h1]; decide⟩
  have hr : List.range 2 = [0, 1] := rfl
  rw [create_gradient_background, hr]
  simp [h0, h1]

/-- C9 counterexample: a negative remaining_seconds is not clamped to the
zero readout: at -30 the readout is "30s remaining" (Python floor modulus
gives seconds 30 and minutes -1), which differs from the readout at 0. -/
theorem claim9_negative_not_clamped :
    draw_time_remaining (-30) = "30s remaining" ∧
    draw_time_remaining 0 = "0s remaining" ∧
    draw_time_remaining (-30) ≠ draw_time_remaining 0 := by
  refine ⟨?_, ?_, ?_⟩ <;> decide

/-- C10: the timer color function is total on all rational progress values
and returns exactly the solid red constant for every input at or above 75,
including inputs above 100; the border-timer path draws that color
unchanged, and render passes progress_percent from the time info record
into it without range validation. -/
theorem claim10_timer_color_red_from_75 (p : ℚ) (hp : 75 ≤ p) :
    get_timer_color p = TIMER_COLOR_RED ∧
    border_timer_color p = some TIMER_COLOR_RED ∧
    ∀ (a : Activity) (ti : TimeInfo), ti.progress_percent = p →
      render_border_color (some a) (some ti) = some TIMER_COLOR_RED := by
  have h50 : ¬ p < 50 := by linarith
  have h75 : ¬ p < 75 := by linarith
  have h0 : ¬ p ≤ 0 := by linarith
  have hcolor : get_timer_color p = TIMER_COLOR_RED := by
    simp [get_timer_color, h50, h75]
  have hborder : border_timer_color p = some TIMER_COLOR_RED := by
    simp [border_timer_color, h0, hcolor]
  refine ⟨hcolor, hborder, ?_⟩
  intro a ti hti
  simp [render_border_color, hti, hborder]

theorem claim10_timer_color_red_from_75_witness :
    (75 : ℚ) ≤ 120 ∧
    get_timer_color 120 = TIMER_COLOR_RED ∧
    border_timer_color 120 = some TIMER_COLOR_RED ∧
    render_border_color (some wrapActivity) (some ⟨0, 0, 0, 120⟩) =
      some TIMER_COLOR_RED := by
  have h := claim10_timer_color_red_from_75 120 (by norm_num)
  exact ⟨by norm_num, h.1, h.2.1, h.2.2 wrapActivity ⟨0, 0, 0, 120⟩ rfl⟩

/-- C3 counterexample: with overlapping windows (allowed by the data model)
the resolver's progress_percent can decrease as now advances within a
single activity's window: both 08:25 (30300 s) and 08:40 (31200 s) lie
inside lateActivity's window 08:00-10:00, but at 08:25 the resolver reports
earlyActivity at progress 1050/11 ≈ 95.5 while at 08:40 it reports
lateActivity at progress 100/3 ≈ 33.3. -/
theorem claim3_progress_monotone_counterexample :
    (30300 : Nat) ≤ 31200 ∧
    lateActivity.start_sec ≤ 30300 ∧ (30300 : Nat) < lateActivity.end_sec ∧
    lateActivity.start_sec ≤ 31200 ∧ (31200 : Nat) < lateActivity.end_sec ∧
    (get_current_and_next_activities (some overlapSchedule) 30300).2.2 =
      some ⟨6300, 300, 6600, 1050 / 11⟩ ∧
    (get_current_and_next_activities (some overlapSchedule) 31200).2.2 =
      some ⟨2400, 4800, 7200, 100 / 3⟩ ∧
    ((⟨2400, 4800, 7200, 100 / 3⟩ : TimeInfo).progress_percent <
      (⟨6300, 300, 6600, 1050 / 11⟩ : TimeInfo).progress_percent) := by
  refine ⟨by decide, by decide, by decide, by decide, by decide, ?_, ?_, by norm_num⟩
  · rw [resolve_overlap_t1]
  · rw [resolve_overlap_t2]

/-- C3 (amended): progress_percent is monotone non-decreasing between two
instants at which the resolver returns the same activity as current (the
unrestricted claim fails when the current activity changes between two
instants inside an overlapped window); it is 0 when the current activity is
entered exactly at its window start; every produced value lies in
[0, 100]; and the progress formula is 0 when total_seconds is 0. -/
theorem claim3_progress_monotone_amended :
    (∀ (sched : Schedule) (a : Activity) (t1 t2 : Nat) (ti1 ti2 : TimeInfo),
      t1 ≤ t2 →
      (get_current_and_next_activities (some sched) t1).1 = some a →
      (get_current_and_next_activities (some sched) t1).2.2 = some ti1 →
      (get_current_and_next_activities (some sched) t2).1 = some a →
      (get_current_and_next_activities (some sched) t2).2.2 = some ti2 →
      ti1.progress_percent ≤ ti2.progress_percent) ∧
    (∀ (sched : Schedule) (a : Activity) (ti : TimeInfo),
      (get_current_and_next_activities (some sched) (a.start_sec)).1 = some a →
      (get_current_and_next_activities (some sched) (a.start_sec)).2.2 = some ti →
      ti.progress_percent = 0) ∧
    (∀ (sched : Schedule) (now : Nat) (ti : TimeInfo),
      (get_current_and_next_activities (some sched) now).2.2 = some ti →
      0 ≤ ti.progress_percent ∧ ti.progress_percent ≤ 100) ∧
    (∀ (a : Activity) (now : Nat), a.duration_minutes = 0 →
      (compute_time_info a now).progress_percent = 0) := by
  refine ⟨?_, ?_, ?_, ?_⟩
  · intro sched a t1 t2 ti1 ti2 h12 hc1 hti1 hc2 hti2
    obtain ⟨rfl, _⟩ := resolver_current_ti hc1 hti1
    obtain ⟨rfl, _⟩ := resolver_current_ti hc2 hti2
    exact compute_time_info_progress_mono h12
  · intro sched a ti hc hti
    obtain ⟨rfl, _⟩ := resolver_current_ti hc hti
    exact compute_time_info_progress_at_start
  · intro sched now ti hti
    obtain ⟨a, _, _, hcur, rfl⟩ := resolve_time_info hti
    exact compute_time_info_progress_mem hcur
  · intro a now h
    exact compute_time_info_progress_zero_total h

theorem claim3_progress_monotone_amended_witness :
    ((⟨600, 1200, 1800, (100 : ℚ) / 3⟩ : TimeInfo).progress_percent ≤
      (⟨1200, 600, 1800, (200 : ℚ) / 3⟩ : TimeInfo).progress_percent) ∧
    (compute_time_info zeroActivity 5).progress_percent = 0 := by
  constructor
  · exact claim3_progress_monotone_amended.1 morningSchedule morningActivity
      25800 26400 ⟨600, 1200, 1800, 100 / 3⟩ ⟨1200, 600, 1800, 200 / 3⟩
      (by norm_num) (by rw [resolve_morning_early]) (by rw [resolve_morning_early])
      (by rw [resolve_morning_late]) (by rw [resolve_morning_late])
  · exact claim3_progress_monotone_amended.2.2.2 zeroActivity 5 rfl

/-- C5: when the current test succeeds first at index i of the sorted
activity list, the resolver returns that activity as current and the entry
at index i+1 (none when i is last) as next — positional, not
nearest-future-start; when no activity passes the current test, current and
time info are none and next is the first sorted activity whose start is
strictly after now. -/
theorem claim5_next_is_positional (sched : Schedule) (now : Nat) :
    (∀ (i : Nat) (a : Activity),
      (sortActivities sched.activities)[i]? = some a →
      isCurrent a now = true →
      (∀ j b, j < i → (sortActivities sched.activities)[j]? = some b →
        isCurrent b now = false) →
      (get_current_and_next_activities (some sched) now).1 = some a ∧
      (get_current_and_next_activities (some sched) now).2.1 =
        (sortActivities sched.activities)[i + 1]?) ∧
    ((∀ b ∈ sortActivities sched.activities, isCurrent b now = false) →
      (get_current_and_next_activities (some sched) now).1 = none ∧
      (get_current_and_next_activities (some sched) now).2.2 = none ∧
      ∀ (i : Nat) (a : Activity),
        (sortActivities sched.activities)[i]? = some a →
        now < a.start_sec →
        (∀ j b, j < i → (sortActivities sched.activities)[j]? = some b →
          ¬ (now < b.start_sec)) →
        (get_current_and_next_activities (some sched) now).2.1 = some a) := by
  constructor
  · intro i a ha hcur hfirst
    have h := findCurrent_at ha hcur hfirst
    rw [resolve_some, h]
    exact ⟨rfl, rfl⟩
  · intro hnone
    have h := findCurrent_eq_none hnone
    rw [resolve_some, h]
    refine ⟨rfl, rfl, ?_⟩
    intro i a ha hstart hfirst
    show findUpcoming now (sortActivities sched.activities) = some a
    apply find?_first _ ha (by simpa using hstart)
    intro j b hj hb
    simpa using hfirst j b hj hb

theorem claim5_next_is_positional_witness :
    (get_current_and_next_activities (some overlapSchedule) 30300).1 =
      some earlyActivity ∧
    (get_current_and_next_activities (some overlapSchedule) 30300).2.1 =
      (sortActivities overlapSchedule.activities)[0 + 1]? := by
  refine (claim5_next_is_positional overlapSchedule 30300).1 0 earlyActivity
    ?_ (by decide) ?_
  · rw [sortActivities_overlap]
    rfl
  · intro j b hj hb
    exact absurd hj (Nat.not_lt_zero j)

/-- C9 (amended): the readout is "Xm Ys remaining" with X = r // 60 > 0 and
Y = r mod 60 when r ≥ 60, and "Ys remaining" with Y = r mod 60 otherwise;
Y is always in [0, 60); for a negative input the minutes form never
triggers, so the readout is "Ys remaining" with Y = r mod 60 — it is not
clamped to the readout of 0. -/
theorem claim9_readout_amended (r : Int) :
    0 ≤ Int.fmod r 60 ∧ Int.fmod r 60 < 60 ∧
    (60 ≤ r →
      draw_time_remaining r =
        toString (Int.fdiv r 60) ++ "m " ++ toString (Int.fmod r 60) ++
          "s remaining" ∧ 0 < Int.fdiv r 60) ∧
    (r < 60 →
      draw_time_remaining r = toString (Int.fmod r 60) ++ "s remaining") := by
  have hd : Int.fdiv r 60 = r / 60 := Int.fdiv_eq_ediv r (by norm_num)
  have hm : Int.fmod r 60 = r % 60 := Int.fmod_eq_emod r (by norm_num)
  refine ⟨by rw [hm]; omega, by rw [hm]; omega, ?_, ?_⟩
  · intro h
    have hpos : 0 < Int.fdiv r 60 := by rw [hd]; omega
    constructor
    · simp only [draw_time_remaining]
      rw [if_pos hpos]
    · exact hpos
  · intro h
    have hneg : ¬ 0 < Int.fdiv r 60 := by rw [hd]; omega
    simp only [draw_time_remaining]
    rw [if_neg hneg]

theorem claim9_readout_amended_witness :
    (60 : Int) ≤ 150 ∧
    draw_time_remaining 150 =
      toString (Int.fdiv 150 60) ++ "m " ++ toString (Int.fmod 150 60) ++
        "s remaining" ∧
    draw_time_remaining (-30) = toString (Int.fmod (-30) 60) ++ "s remaining" := by
  refine ⟨by norm_num, ((claim9_readout_amended 150).2.2.1 (by norm_num)).1, ?_⟩
  exact (claim9_readout_amended (-30)).2.2.2 (by norm_num)

/-! ### Word-wrap lemmas -/

theorem intercalate_single (sep : List Char) (a : List Char) :
    List.intercalate sep [a] = a := by
  simp [List.intercalate]

theorem joinSp_single (a : List Char) : joinSp [a] = a := intercalate_single _ a

theorem intercalate_cons_of_ne_nil (sep : List Char) (a : List Char)
    {l : List (List Char)} (h : l ≠ []) :
    List.intercalate sep (a :: l) = a ++ sep ++ List.intercalate sep l := by
  obtain ⟨b, l2, rfl⟩ := List.exists_cons_of_ne_nil h
  simp [List.intercalate, List.intersperse_cons_cons, List.append_assoc]

theorem intercalate_append_of_ne_nil (sep : List Char) :
    ∀ {l1 l2 : List (List Char)}, l1 ≠ [] → l2 ≠ [] →
      List.intercalate sep (l1 ++ l2) =
        List.intercalate sep l1 ++ sep ++ List.intercalate sep l2 := by
  intro l1
  induction l1 with
  | nil => intro l2 h1 _; exact absurd rfl h1
  | cons a l1 ih =>
    intro l2 _ h2
    cases l1 with
    | nil =>
      rw [List.singleton_append, intercalate_single,
        intercalate_cons_of_ne_nil sep a h2]
    | cons b l1a =>
      rw [List.cons_append,
        intercalate_cons_of_ne_nil sep a (by simp : b :: l1a ++ l2 ≠ []),
        intercalate_cons_of_ne_nil sep a (by simp : b :: l1a ≠ []),
        ih (by simp) h2]
      simp [List.append_assoc]

theorem wrapLoop_ne_nil (font : List Char → Nat) (max_width : Nat) :
    ∀ (ws : List (List Char)) {cur : List (List Char)}, cur ≠ [] →
      wrapLoop font max_width cur ws ≠ [] := by
  intro ws
  induction ws with
  | nil =>
    intro cur h
    rw [wrapLoop]
    rw [if_neg (by simpa using h)]
    simp
  | cons w ws ih =>
    intro cur h
    rw [wrapLoop]
    by_cases hfit : font (joinSp (cur ++ [w])) ≤ max_width
    · rw [if_pos hfit]
      exact ih (by simp)
    · rw [if_neg hfit, if_neg (by simpa using h)]
      simp

theorem wrapLoop_join (font : List Char → Nat) (max_width : Nat) :
    ∀ (ws : List (List Char)) {cur : List (List Char)}, cur ≠ [] →
      List.intercalate [' '] (wrapLoop font max_width cur ws) =
        List.intercalate [' '] (cur ++ ws) := by
  intro ws
  induction ws with
  | nil =>
    intro cur h
    rw [wrapLoop, if_neg (by simpa using h), List.append_nil]
    exact intercalate_single _ _
  | cons w ws ih =>
    intro cur h
    rw [wrapLoop]
    by_cases hfit : font (joinSp (cur ++ [w])) ≤ max_width
    · rw [if_pos hfit, ih (by simp)]
      rw [List.append_assoc, List.singleton_append]
    · rw [if_neg hfit, if_neg (by simpa using h),
        intercalate_cons_of_ne_nil [' '] _ (wrapLoop_ne_nil font max_width ws (by simp)),
        ih (by simp : ([w] : List (List Char)) ≠ []),
        intercalate_append_of_ne_nil [' '] h (by simp : w :: ws ≠ []),
        List.singleton_append]
      rfl

theorem wrapLoop_mem (font : List Char → Nat) (max_width : Nat) :
    ∀ (ws : List (List Char)) {cur : List (List Char)},
      (cur = [] ∨ font (joinSp cur) ≤ max_width ∨ ∃ w, cur = [w]) →
      ∀ l ∈ wrapLoop font max_width cur ws,
        font l ≤ max_width ∨ l ∈ cur ++ ws := by
  intro ws
  induction ws with
  | nil =>
    intro cur hinv l hl
    rw [wrapLoop] at hl
    by_cases hcur : cur.isEmpty = true
    · rw [if_pos hcur] at hl
      simp at hl
    · rw [if_neg hcur] at hl
      obtain rfl : l = joinSp cur := by simpa using hl
      rcases hinv with h | h | ⟨w, rfl⟩
      · exact absurd (by simp [h]) hcur
      · exact Or.inl h
      · right
        rw [joinSp_single]
        simp
  | cons w ws ih =>
    intro cur hinv l hl
    rw [wrapLoop] at hl
    by_cases hfit : font (joinSp (cur ++ [w])) ≤ max_width
    · rw [if_pos hfit] at hl
      have := ih (Or.inr (Or.inl hfit)) l hl
      rcases this with h | h
      · exact Or.inl h
      · right
        rw [← List.singleton_append, ← List.append_assoc]
        exact h
    · rw [if_neg hfit] at hl
      by_cases hcur : cur.isEmpty = true
      · rw [if_pos hcur] at hl
        obtain rfl : cur = [] := by simpa using hcur
        have := ih (Or.inr (Or.inr ⟨w, rfl⟩)) l hl
        rcases this with h | h
        · exact Or.inl h
        · right
          simpa using h
      · rw [if_neg hcur] at hl
        rcases List.mem_cons.mp hl with rfl | hl2
        · rcases hinv with h | h | ⟨v, rfl⟩
          · exact absurd (by simp [h]) hcur
          · exact Or.inl h
          · right
            rw [joinSp_single]
            simp
        · have := ih (Or.inr (Or.inr ⟨w, rfl⟩)) l hl2
          rcases this with h | h
          · exact Or.inl h
          · right
            rcases (by simpa using h : l = w ∨ l ∈ ws) with rfl | h3
            · simp
            · simp [h3]

theorem wrap_text_rejoin (text : List Char) (font : List Char → Nat)
    (max_width : Nat) :
    List.intercalate [' '] (wrap_text text font max_width) = text := by
  have hsplit : List.intercalate [' '] (text.splitOn ' ') = text :=
    List.intercalate_splitOn text ' '
  rw [wrap_text]
  cases hw : text.splitOn ' ' with
  | nil => exact absurd hw (List.splitOnP_ne_nil _ text)
  | cons w ws =>
    have hstep : wrapLoop font max_width [] (w :: ws) =
        wrapLoop font max_width [w] ws := by
      rw [wrapLoop]
      split <;> simp
    rw [hstep, wrapLoop_join font max_width ws (by simp), List.singleton_append,
      ← hw, hsplit]

/-- C7 counterexample: a single word wider than the maximum width becomes a
line on its own whose measured width exceeds the maximum: wrapping "hello"
at width 3 under the length metric (every character one unit wide) yields
the line "hello" of width 5. -/
theorem claim7_wrap_overflow_counterexample :
    wrap_text "hello".toList List.length 3 = ["hello".toList] ∧
    3 < List.length "hello".toList := by
  constructor <;> decide

/-- C7 (amended): every line produced by the word wrap either fits the
maximum width under the supplied font metric or is a single input word
(which then itself exceeds the width — the only case the greedy fill cannot
avoid); joining all produced lines with single spaces reproduces the
original text. -/
theorem claim7_wrap_amended (text : List Char) (font : List Char → Nat)
    (max_width : Nat) :
    (∀ l ∈ wrap_text text font max_width,
      font l ≤ max_width ∨ l ∈ text.splitOn ' ') ∧
    List.intercalate [' '] (wrap_text text font max_width) = text := by
  constructor
  · intro l hl
    rw [wrap_text] at hl
    have := wrapLoop_mem font max_width (text.splitOn ' ') (Or.inl rfl) l hl
    simpa using this
  · exact wrap_text_rejoin text font max_width

theorem claim7_wrap_amended_witness :
    (List.length "now".toList ≤ 3 ∨
      "now".toList ∈ ("now next".toList).splitOn ' ') ∧
    List.intercalate [' '] (wrap_text "now next".toList List.length 3) =
      "now next".toList := by
  have h := claim7_wrap_amended "now next".toList List.length 3
  exact ⟨h.1 "now".toList (by decide), h.2⟩

end NowNext
